import Mathlib

/-! Verification development for the polling application data access layer.

The definitions below are a shallow embedding of
`src/lib/database.service.ts` (class `DatabaseService`) operating over the
relational schema of `supabase/migrations/001_initial_schema.sql`
(tables `polls`, `poll_options`, `votes`, view `poll_results`).

Modelling conventions:
* The store is a triple of row lists (`DB`).  Row types mirror the generated
  row types in `src/lib/database.types.ts`; nullable columns are `Option`.
* Timestamps are ISO-8601 strings; `new Date(a) < new Date(b)` is modelled
  as lexicographic string comparison, which agrees with chronological order
  for ISO-8601 strings in a fixed timezone.
* Vote rows are modelled by their service-visible content
  (`poll_id`, `option_id`, `user_id`); the uuid primary key, `voter_ip` and
  `created_at` columns are never read by the service.
* The `votes` table carries the schema constraint `UNIQUE(poll_id, user_id)`
  (migration line 37) and the foreign key
  `option_id REFERENCES poll_options(id)` (migration line 32).  An insert
  statement violating either fails as a whole and leaves the table
  unchanged, as in PostgreSQL; unique violations surface during the per-row
  index updates, before the end-of-statement referential triggers; two NULL
  `user_id` values never conflict.
* Stateful operations return the raised-or-returned outcome paired with the
  store state after the call (mutations before a failing step persist, as
  the service uses no transactions).
* Store transport failures are modelled only where a claim needs them, via
  an explicit fault flag parameter; otherwise the store is assumed healthy.
-/

/-- A row of the `polls` table (`Poll` in `database.types.ts`). -/
structure PollRow where
  id : String
  title : String
  description : Option String
  status : String
  created_by : String
  created_at : String
  updated_at : String
  expires_at : Option String
  allow_multiple_votes : Bool
  is_anonymous : Bool
deriving Repr, DecidableEq

/-- A row of the `poll_options` table (`PollOption` in `database.types.ts`). -/
structure OptionRow where
  id : String
  poll_id : String
  text : String
  position : Nat
  created_at : String
deriving Repr, DecidableEq

/-- A row of the `votes` table, restricted to the columns the service reads
and writes (`poll_id`, `option_id`, `user_id`). -/
structure VoteRow where
  poll_id : String
  option_id : String
  user_id : Option String
deriving Repr, DecidableEq

/-- The relational store state: the three base tables. -/
structure DB where
  polls : List PollRow
  options : List OptionRow
  votes : List VoteRow
deriving Repr, DecidableEq

/-- Lexicographic strict order on character sequences. -/
def charsLt : List Char → List Char → Bool
  | [], [] => false
  | [], _ :: _ => true
  | _ :: _, [] => false
  | a :: as, b :: bs =>
      decide (a.toNat < b.toNat) || (decide (a.toNat = b.toNat) && charsLt as bs)

/-- Models `new Date(a) < new Date(b)` on ISO-8601 timestamp strings:
lexicographic comparison agrees with chronological order for ISO-8601
strings in a fixed timezone. -/
def dateLt (a b : String) : Bool :=
  charsLt a.toList b.toList

/-- Lexicographic non-strict comparison on strings, used for ORDER BY keys
and for the SQL range comparisons on timestamp columns. -/
def stringLe (a b : String) : Bool :=
  !(charsLt b.toList a.toList)

/-- Insert into a sorted list, for `orderedInsertBy`. -/
def orderedInsertBy (le : α → α → Bool) (a : α) : List α → List α
  | [] => [a]
  | b :: l => if le a b then a :: b :: l else b :: orderedInsertBy le a l

/-- Stable insertion sort by a boolean comparator; models the ORDER BY of
the store queries. -/
def insertionSortBy (le : α → α → Bool) : List α → List α
  | [] => []
  | a :: l => orderedInsertBy le a (insertionSortBy le l)

/-- Two vote rows collide on the schema constraint `UNIQUE(poll_id, user_id)`
exactly when they share the poll and a non-NULL user (SQL `NULL` values are
pairwise distinct for uniqueness). -/
def voteKeyConflict (v w : VoteRow) : Bool :=
  v.poll_id == w.poll_id &&
    match v.user_id, w.user_id with
    | some a, some b => a == b
    | _, _ => false

/-- Whether inserting the rows `new` (in order) into a table already holding
`seen` hits the `UNIQUE(poll_id, user_id)` constraint: each row is checked
against the prior rows and the earlier rows of the same statement. -/
def batchViolates : (seen new : List VoteRow) → Bool
  | _, [] => false
  | seen, v :: rest =>
      seen.any (fun w => voteKeyConflict v w) || batchViolates (v :: seen) rest

/-- Whether inserting the rows `new` hits the foreign key
`votes.option_id REFERENCES poll_options(id)` (migration line 32): every
inserted vote must reference a stored option row.  The referential checks
run as end-of-statement triggers, after the per-row index updates, so a
unique violation in the same statement surfaces first.  The poll foreign
key is satisfied on the insert path (the poll row was just fetched), and
the user foreign key targets the external auth table, outside this model. -/
def fkViolates (options : List OptionRow) (new : List VoteRow) : Bool :=
  new.any (fun v => !(options.any (fun o => o.id == v.option_id)))

/-- The expiry test of `vote`
(`poll.expires_at && new Date(poll.expires_at) < new Date()`). -/
def voteExpiredCheck (expires_at : Option String) (now : String) : Bool :=
  match expires_at with
  | some e => dateLt e now
  | none => false

/-- The not-yet-expired test of `getPollById`
(`!pollData.expires_at || new Date(pollData.expires_at) > new Date()`). -/
def notYetExpired (expires_at : Option String) (now : String) : Bool :=
  match expires_at with
  | some e => dateLt now e
  | none => true

/-- The delete of step 2 of `DatabaseService.vote`: remove every vote of
`userId` on `pollId`. -/
def deleteUserVotes (votes : List VoteRow) (pollId userId : String) : List VoteRow :=
  votes.filter (fun v => !(v.poll_id == pollId && v.user_id == some userId))

/-- The `votesToInsert` array of `DatabaseService.vote`: one row per
selected option id, all carrying the same poll id and voter identity. -/
def votesToInsert (pollId : String) (optionIds : List String) (userId : String) :
    List VoteRow :=
  optionIds.map (fun oid =>
    { poll_id := pollId, option_id := oid, user_id := some userId : VoteRow })

/-- Embedding of `DatabaseService.vote` (database.service.ts lines 355-392):
check existence, `active` status and expiration; for single-vote polls delete
the prior votes of the voter; insert one vote row per selected option id.
The insert is subject to the `UNIQUE(poll_id, user_id)` constraint (checked
per row during insertion) and to the option foreign key (checked at the end
of the statement, so a unique violation is reported first); either failure
aborts the whole insert, with the earlier scoped delete already applied. -/
def vote (db : DB) (now pollId : String) (optionIds : List String) (userId : String) :
    Except String Unit × DB :=
  match db.polls.find? (fun p => p.id == pollId) with
  | none => (Except.error "Poll not found", db)
  | some poll =>
    if poll.status != "active" then
      (Except.error "Poll is not active", db)
    else if voteExpiredCheck poll.expires_at now then
      (Except.error "Poll has expired", db)
    else
      let votes1 := if poll.allow_multiple_votes then db.votes
                    else deleteUserVotes db.votes pollId userId
      let newVotes := votesToInsert pollId optionIds userId
      if batchViolates votes1 newVotes then
        (Except.error "Failed to cast vote: duplicate key value violates unique constraint",
         { db with votes := votes1 })
      else if fkViolates db.options newVotes then
        (Except.error "Failed to cast vote: insert on table votes violates foreign key constraint",
         { db with votes := votes1 })
      else
        (Except.ok (), { db with votes := votes1 ++ newVotes })

/-- The votes stored for voter `userId` on poll `pollId`. -/
def votesOf (db : DB) (pollId userId : String) : List VoteRow :=
  db.votes.filter (fun v => v.poll_id == pollId && v.user_id == some userId)

/-- JavaScript truthiness test for an optional string: `undefined`, `null`
and the empty string are falsy. -/
def jsFalsy : Option String → Bool
  | none => true
  | some s => s == ""

/-- Models the JavaScript idiom `x || d` for a nullable string `x`. -/
def jsOrStr (o : Option String) (d : String) : String :=
  match o with
  | some s => if s == "" then d else s
  | none => d

/-- Models the JavaScript idiom `x || d` for a nullable number `x` used as a
non-negative integer (`0` is falsy, so it also falls back to `d`). -/
def jsOrNat (o : Option Nat) (d : Nat) : Nat :=
  match o with
  | some n => if n == 0 then d else n
  | none => d

/-- A poll option annotated with `vote_count` and `user_voted`, as assembled
by `getPollById` (type `PollWithUserVote` in `database.types.ts`). -/
structure OptionWithUserVote where
  id : String
  poll_id : String
  text : String
  position : Nat
  created_at : String
  vote_count : Nat
  user_voted : Bool
deriving Repr, DecidableEq

/-- The enriched poll returned by `getPollById`
(`PollWithUserVote` in `database.types.ts`). -/
structure PollWithUserVote where
  id : String
  title : String
  description : Option String
  status : String
  created_by : String
  created_at : String
  updated_at : String
  expires_at : Option String
  allow_multiple_votes : Bool
  is_anonymous : Bool
  poll_options : List OptionWithUserVote
  total_votes : Nat
  user_can_vote : Bool
deriving Repr, DecidableEq

/-- The `user_can_vote` computation of `getPollById` (lines 196-200), on the
truthiness-normalised voter identity: false without an identity, else
active AND not expired AND (multiple votes allowed OR zero votes by the
voter on this poll so far). -/
def userCanVote (pollData : PollRow) (db : DB) (now id : String)
    (uid : Option String) : Bool :=
  match uid with
  | none => false
  | some u =>
      pollData.status == "active" &&
      notYetExpired pollData.expires_at now &&
      (pollData.allow_multiple_votes ||
        ((db.votes.filter (fun v => v.poll_id == id && v.user_id == some u)).map
          (fun v => v.option_id)).length == 0)

/-- Embedding of `DatabaseService.getPollById` (lines 134-208).  The source
returns `null` when the poll-row fetch produced an error OR no row
(`if (pollError || !pollData) return null`); the flag `pollFetchFails`
injects a store failure into that first fetch.  The remaining fetches are
modelled on a healthy store. -/
def getPollById (db : DB) (now id : String) (userId : Option String)
    (pollFetchFails : Bool) : Option PollWithUserVote :=
  if pollFetchFails then none
  else
    match db.polls.find? (fun p => p.id == id) with
    | none => none
    | some pollData =>
      let optionsData :=
        insertionSortBy (fun a b => a.position ≤ b.position)
          (db.options.filter (fun o => o.poll_id == id))
      let voteCounts := db.votes.filter (fun v => v.poll_id == id)
      -- `userId ? ... : ...` in the source; the empty string is falsy
      let uid : Option String := if jsFalsy userId then none else userId
      let userVotes : List String :=
        match uid with
        | some u =>
            (db.votes.filter (fun v => v.poll_id == id && v.user_id == some u)).map
              (fun v => v.option_id)
        | none => []
      let poll_options := optionsData.map (fun o =>
        { id := o.id, poll_id := o.poll_id, text := o.text,
          position := o.position, created_at := o.created_at,
          vote_count := (voteCounts.filter (fun v => v.option_id == o.id)).length,
          user_voted := userVotes.contains o.id : OptionWithUserVote })
      let total_votes := voteCounts.length
      let user_can_vote := userCanVote pollData db now id uid
      some { id := pollData.id, title := pollData.title,
             description := pollData.description, status := pollData.status,
             created_by := pollData.created_by, created_at := pollData.created_at,
             updated_at := pollData.updated_at, expires_at := pollData.expires_at,
             allow_multiple_votes := pollData.allow_multiple_votes,
             is_anonymous := pollData.is_anonymous,
             poll_options := poll_options, total_votes := total_votes,
             user_can_vote := user_can_vote }

/-- The `CreatePollRequest` shape of `database.types.ts` (optional fields as
`Option`). -/
structure CreatePollRequest where
  title : String
  description : Option String
  options : List String
  expires_at : Option String
  allow_multiple_votes : Option Bool
  is_anonymous : Option Bool
deriving Repr, DecidableEq

/-- Embedding of `DatabaseService.createPoll` (lines 216-251).  `newPollId`
and `genOptionIds` stand for the uuids the store generates; `now` for the
row timestamps; `optionsInsertFails` injects a store failure into the
option-insert statement (the claim-relevant failure; a failing poll insert
simply raises with the store unchanged and is not modelled).  On an option
insert failure the service deletes the just-created poll row, which cascades
to any rows referencing it. -/
def createPoll (db : DB) (req : CreatePollRequest) (userId : String)
    (newPollId : String) (genOptionIds : List String) (now : String)
    (optionsInsertFails : Bool) : Except String PollRow × DB :=
  let poll : PollRow :=
    { id := newPollId, title := req.title, description := req.description,
      status := "active",  -- schema default: the insert omits `status`
      created_by := userId, created_at := now, updated_at := now,
      expires_at := req.expires_at,
      allow_multiple_votes := req.allow_multiple_votes.getD false,
      is_anonymous := req.is_anonymous.getD false }
  let db1 : DB := { db with polls := db.polls ++ [poll] }
  if optionsInsertFails then
    (Except.error "Failed to create poll options",
     { polls := db1.polls.filter (fun p => !(p.id == newPollId)),
       options := db1.options.filter (fun o => !(o.poll_id == newPollId)),
       votes := db1.votes.filter (fun v => !(v.poll_id == newPollId)) })
  else
    let optionsToInsert := (req.options.enum.zip genOptionIds).map (fun x =>
      { id := x.2, poll_id := newPollId, text := x.1.2, position := x.1.1,
        created_at := now : OptionRow })
    (Except.ok poll, { db1 with options := db1.options ++ optionsToInsert })

/-- The `UpdatePollRequest` shape of `database.types.ts`: absent fields are
left unchanged by the update. -/
structure UpdatePollRequest where
  title : Option String
  description : Option String
  status : Option String
  expires_at : Option String
  allow_multiple_votes : Option Bool
  is_anonymous : Option Bool
deriving Repr, DecidableEq

/-- One replacement option passed to `updatePoll`. -/
structure OptionInput where
  id : String
  text : String
  position : Nat
deriving Repr, DecidableEq

/-- Applies a partial update to a poll row; the store trigger
`update_polls_updated_at` sets `updated_at` to the update time. -/
def applyUpdates (p : PollRow) (u : UpdatePollRequest) (now : String) : PollRow :=
  { p with
    title := u.title.getD p.title,
    description := match u.description with
                   | some d => some d
                   | none => p.description,
    status := u.status.getD p.status,
    expires_at := match u.expires_at with
                  | some e => some e
                  | none => p.expires_at,
    allow_multiple_votes := u.allow_multiple_votes.getD p.allow_multiple_votes,
    is_anonymous := u.is_anonymous.getD p.is_anonymous,
    updated_at := now }

/-- Embedding of `DatabaseService.updatePoll` (lines 260-310).  The update is
scoped by id AND creator; a zero-row match raises the combined
not-found-or-not-permitted error.  When a replacement option list is given,
all options of the poll are deleted (their votes cascade away) and the list
is re-inserted; ids that look like client-side placeholders (prefix `opt`)
are replaced by store-generated ids (`genIds`).  The option re-insert is
modelled on a healthy store. -/
def updatePoll (db : DB) (now id : String) (updates : UpdatePollRequest)
    (options : Option (List OptionInput)) (genIds : List String)
    (userId : String) : Except String PollRow × DB :=
  match db.polls.find? (fun p => p.id == id && p.created_by == userId) with
  | none =>
      (Except.error "Poll not found or you do not have permission to update it", db)
  | some p0 =>
    let updated := applyUpdates p0 updates now
    let db1 : DB := { db with
      polls := db.polls.map (fun p =>
        if p.id == id && p.created_by == userId then applyUpdates p updates now
        else p) }
    match options with
    | none => (Except.ok updated, db1)
    | some opts =>
      let deletedOptionIds :=
        (db1.options.filter (fun o => o.poll_id == id)).map (fun o => o.id)
      let keptOptions := db1.options.filter (fun o => !(o.poll_id == id))
      let keptVotes :=
        db1.votes.filter (fun v => !(deletedOptionIds.contains v.option_id))
      let optionsToInsert := (opts.zip genIds).map (fun x =>
        { id := if x.1.id.startsWith "opt" then x.2 else x.1.id,
          poll_id := id, text := x.1.text, position := x.1.position,
          created_at := now : OptionRow })
      (Except.ok updated,
       { db1 with options := keptOptions ++ optionsToInsert, votes := keptVotes })

/-- Embedding of `DatabaseService.deletePoll` (lines 337-347): a delete
scoped by id AND creator.  A delete that matches zero rows is NOT a store
error, so the call succeeds; matching rows are removed and their options and
votes cascade away. -/
def deletePoll (db : DB) (id userId : String) : Except String Unit × DB :=
  let removedIds :=
    (db.polls.filter (fun p => p.id == id && p.created_by == userId)).map
      (fun p => p.id)
  let removedOptionIds :=
    (db.options.filter (fun o => removedIds.contains o.poll_id)).map (fun o => o.id)
  (Except.ok (),
   { polls := db.polls.filter (fun p => !(p.id == id && p.created_by == userId)),
     options := db.options.filter (fun o => !(removedIds.contains o.poll_id)),
     votes := db.votes.filter (fun v =>
       !(removedIds.contains v.poll_id || removedOptionIds.contains v.option_id)) })

/-- A row of the `poll_results` view (`PollResult` in `database.types.ts`):
one row per (poll, option) pair via a left join, so a poll without options
yields a single row with NULL option columns. -/
structure PollResultRow where
  poll_id : Option String
  title : Option String
  description : Option String
  status : Option String
  created_at : Option String
  expires_at : Option String
  option_id : Option String
  option_text : Option String
  position : Option Nat
  vote_count : Option Nat
  total_votes : Option Nat
deriving Repr, DecidableEq

/-- The `poll_results` view of the migration (lines 126-151): polls left
joined with their options and with per-option and per-poll vote counts
(`COALESCE`d to 0), ordered by poll creation (descending) then option
position (ascending). -/
def pollResultsView (db : DB) : List PollResultRow :=
  (insertionSortBy (fun a b => stringLe b.created_at a.created_at) db.polls).flatMap (fun p =>
    let opts := insertionSortBy (fun a b => a.position ≤ b.position)
      (db.options.filter (fun o => o.poll_id == p.id))
    let total := (db.votes.filter (fun v => v.poll_id == p.id)).length
    match opts with
    | [] =>
        [{ poll_id := some p.id, title := some p.title,
           description := p.description, status := some p.status,
           created_at := some p.created_at, expires_at := p.expires_at,
           option_id := none, option_text := none, position := none,
           vote_count := some 0, total_votes := some total }]
    | _ => opts.map (fun o =>
        { poll_id := some p.id, title := some p.title,
          description := p.description, status := some p.status,
          created_at := some p.created_at, expires_at := p.expires_at,
          option_id := some o.id, option_text := some o.text,
          position := some o.position,
          vote_count := some (db.votes.filter (fun v => v.option_id == o.id)).length,
          total_votes := some total }))

/-- The `PollFilters` shape of `database.types.ts`. -/
structure PollFilters where
  status : Option String
  created_by : Option String
  search : Option String
  expires_after : Option String
  expires_before : Option String
deriving Repr, DecidableEq

/-- The `PollSort` shape of `database.types.ts`; the TS field `by` is a Lean
keyword, so it is called `key` here (`created_at | updated_at | title |
total_votes`), with `order` being `asc` or `desc`. -/
structure PollSort where
  key : String
  order : String
deriving Repr, DecidableEq

/-- The `PaginationParams` shape of `database.types.ts`. -/
structure PaginationParams where
  page : Option Nat
  limit : Option Nat
deriving Repr, DecidableEq

/-- One optional filter stage of a store query: when the filter value is
present, keep the rows passing its test; otherwise leave the rows alone. -/
def applyOptFilter (test : β → α → Bool) (o : Option β) (l : List α) : List α :=
  match o with
  | some b => l.filter (test b)
  | none => l

/-- Whether the first character list starts the second one. -/
def leadsWith : List Char → List Char → Bool
  | [], _ => true
  | _ :: _, [] => false
  | p :: ps, c :: cs => p == c && leadsWith ps cs

/-- Whether the first character list occurs contiguously in the second. -/
def containsChars (pat : List Char) : List Char → Bool
  | [] => leadsWith pat []
  | c :: rest => leadsWith pat (c :: rest) || containsChars pat rest

/-- Models the `ilike` title search of the listing queries:
case-insensitive substring match on the (nullable) title column. -/
def ilikeContains (pat : String) (s : Option String) : Bool :=
  match s with
  | some t => containsChars pat.toLower.toList t.toLower.toList
  | none => false

/-- The optional filters of `getPolls` applied to view rows (lines 47-58);
SQL comparisons against a NULL `expires_at` do not match. -/
def filterRows (filters : Option PollFilters) (rows : List PollResultRow) :
    List PollResultRow :=
  applyOptFilter (fun s r => r.status == some s)
      (filters.bind (fun f => f.status)) rows
  |> applyOptFilter (fun q r => ilikeContains q r.title)
      (filters.bind (fun f => f.search))
  |> applyOptFilter (fun a r =>
        match r.expires_at with
        | some e => stringLe a e
        | none => false)
      (filters.bind (fun f => f.expires_after))
  |> applyOptFilter (fun b r =>
        match r.expires_at with
        | some e => stringLe e b
        | none => false)
      (filters.bind (fun f => f.expires_before))

/-- Server-side ordering of view rows for `query.order(sort.by, ...)`:
comparison on the requested column (the view lacks `updated_at`; ordering on
a column the claims never exercise is modelled as keeping the row order). -/
def rowLe (key : String) (asc : Bool) (a b : PollResultRow) : Bool :=
  let x := if asc then a else b
  let y := if asc then b else a
  if key == "created_at" then stringLe (x.created_at.getD "") (y.created_at.getD "")
  else if key == "title" then stringLe (x.title.getD "") (y.title.getD "")
  else if key == "total_votes" then decide (x.total_votes.getD 0 ≤ y.total_votes.getD 0)
  else true

/-- The rows `getPolls` hands to its reconstruction loop: view rows after
filtering (lines 47-58), ordering (lines 61-65, default newest first) and
the pagination range (lines 67-73). -/
def pollsQueryRows (db : DB) (filters : Option PollFilters)
    (sort : Option PollSort) (pagination : Option PaginationParams) :
    List PollResultRow :=
  let rows := filterRows filters (pollResultsView db)
  let sorted := match sort with
    | some s => insertionSortBy (rowLe s.key (s.order == "asc")) rows
    | none => insertionSortBy (rowLe "created_at" false) rows
  let page := jsOrNat (pagination.bind (fun p => p.page)) 1
  let limit := jsOrNat (pagination.bind (fun p => p.limit)) 10
  (sorted.drop ((page - 1) * limit)).take limit

/-- A poll option annotated with `vote_count` (part of `PollWithResults`). -/
structure OptionWithCount where
  id : String
  poll_id : String
  text : String
  position : Nat
  created_at : String
  vote_count : Nat
deriving Repr, DecidableEq

/-- The `PollWithResults` shape of `database.types.ts`. -/
structure PollWithResults where
  id : String
  title : String
  description : Option String
  status : String
  created_by : String
  created_at : String
  updated_at : String
  expires_at : Option String
  allow_multiple_votes : Bool
  is_anonymous : Bool
  poll_options : List OptionWithCount
  total_votes : Nat
deriving Repr, DecidableEq

/-- The four placeholder fields of a poll record reconstructed from the
`poll_results` view: the view omits `created_by`, `updated_at`,
`allow_multiple_votes` and `is_anonymous`, so `getPolls` fills in fixed
values independent of the stored row. -/
def placeholderFields (p : PollWithResults) : Prop :=
  p.created_by = "" ∧ p.updated_at = "" ∧
    p.allow_multiple_votes = false ∧ p.is_anonymous = false

/-- The `PollsResponse` shape of `database.types.ts`. -/
structure PollsResponse where
  polls : List PollWithResults
  total : Nat
  page : Nat
  limit : Nat
deriving Repr, DecidableEq

/-- One iteration of the reconstruction loop of `getPolls` (lines 85-118):
skip rows with a falsy poll id; create the poll entry the first time a poll
id is seen (the view lacks `created_by`, `updated_at`,
`allow_multiple_votes` and `is_anonymous`, so placeholders go in); append
the option of the row when its option id is truthy.  The JS `Map` keeps
insertion order, modelled by an id-keyed list. -/
def reconstructStep (acc : List PollWithResults) (row : PollResultRow) :
    List PollWithResults :=
  if jsFalsy row.poll_id then acc
  else
    let pid := row.poll_id.getD ""
    let base : PollWithResults :=
      { id := pid, title := jsOrStr row.title "",
        description := row.description,
        status := jsOrStr row.status "draft",
        created_by := "", created_at := jsOrStr row.created_at "",
        updated_at := "", expires_at := row.expires_at,
        allow_multiple_votes := false, is_anonymous := false,
        poll_options := [], total_votes := row.total_votes.getD 0 }
    let acc1 :=
      if acc.any (fun p => p.id == pid) then acc
      else acc ++ [base]
    if jsFalsy row.option_id then acc1
    else acc1.map (fun p =>
      if p.id == pid then
        { p with poll_options := p.poll_options ++
            [{ id := row.option_id.getD "", poll_id := pid,
               text := jsOrStr row.option_text "",
               position := row.position.getD 0, created_at := "",
               vote_count := row.vote_count.getD 0 }] }
      else p)

/-- The full reconstruction loop of `getPolls` (lines 83-121). -/
def reconstructPolls (rows : List PollResultRow) : List PollWithResults :=
  rows.foldl reconstructStep []

/-- Embedding of `DatabaseService.getPollsByCreator` (lines 423-513): a
direct query on the `polls` table scoped by creator, with the same filters,
ordering and range, then a batched second pass attaching options (ordered by
position) and vote counts.  The select does not request a row count, so the
returned `total` is `count || 0 = 0`. -/
def getPollsByCreator (db : DB) (userId : String) (filters : Option PollFilters)
    (sort : Option PollSort) (pagination : Option PaginationParams) :
    PollsResponse :=
  let q0 := db.polls.filter (fun p => p.created_by == userId)
  let q1 := applyOptFilter (fun s p => p.status == s)
    (filters.bind (fun f => f.status)) q0
  let q2 := applyOptFilter (fun q p => ilikeContains q (some p.title))
    (filters.bind (fun f => f.search)) q1
  let q3 := applyOptFilter (fun a p =>
      match p.expires_at with
      | some e => stringLe a e
      | none => false)
    (filters.bind (fun f => f.expires_after)) q2
  let q4 := applyOptFilter (fun b p =>
      match p.expires_at with
      | some e => stringLe e b
      | none => false)
    (filters.bind (fun f => f.expires_before)) q3
  let keyLe := fun (key : String) (asc : Bool) (a b : PollRow) =>
    let x := if asc then a else b
    let y := if asc then b else a
    if key == "created_at" then stringLe x.created_at y.created_at
    else if key == "updated_at" then stringLe x.updated_at y.updated_at
    else if key == "title" then stringLe x.title y.title
    else true
  let sorted := match sort with
    | some s => insertionSortBy (keyLe s.key (s.order == "asc")) q4
    | none => insertionSortBy (keyLe "created_at" false) q4
  let page := jsOrNat (pagination.bind (fun p => p.page)) 1
  let limit := jsOrNat (pagination.bind (fun p => p.limit)) 10
  let polls := (sorted.drop ((page - 1) * limit)).take limit
  if polls.isEmpty then { polls := [], total := 0, page := page, limit := limit }
  else
    let pollIds := polls.map (fun p => p.id)
    let fetchedVotes := db.votes.filter (fun v => pollIds.contains v.poll_id)
    let withResults := polls.map (fun p =>
      let pollOptions := insertionSortBy (fun a b => a.position ≤ b.position)
        (db.options.filter (fun o => o.poll_id == p.id))
      { id := p.id, title := p.title, description := p.description,
        status := p.status, created_by := p.created_by,
        created_at := p.created_at, updated_at := p.updated_at,
        expires_at := p.expires_at,
        allow_multiple_votes := p.allow_multiple_votes,
        is_anonymous := p.is_anonymous,
        poll_options := pollOptions.map (fun o =>
          { id := o.id, poll_id := o.poll_id, text := o.text,
            position := o.position, created_at := o.created_at,
            vote_count := (fetchedVotes.filter (fun v => v.option_id == o.id)).length }),
        total_votes := (fetchedVotes.filter (fun v => v.poll_id == p.id)).length
        : PollWithResults })
    { polls := withResults, total := 0, page := page, limit := limit }

/-- The creator filter of a `getPolls` call, as the source reads it
(`filters?.created_by`). -/
def createdByFilter (filters : Option PollFilters) : Option String :=
  filters.bind (fun f => f.created_by)

/-- Embedding of `DatabaseService.getPolls` (lines 31-126): a truthy creator
filter delegates to `getPollsByCreator`; otherwise the `poll_results` view
is queried and poll records are reconstructed by grouping its rows.  The
select does not request a row count, so the returned `total` is
`count || 0 = 0`. -/
def getPolls (db : DB) (filters : Option PollFilters) (sort : Option PollSort)
    (pagination : Option PaginationParams) : PollsResponse :=
  if !(jsFalsy (createdByFilter filters)) then
    getPollsByCreator db ((createdByFilter filters).getD "") filters sort pagination
  else
    let page := jsOrNat (pagination.bind (fun p => p.page)) 1
    let limit := jsOrNat (pagination.bind (fun p => p.limit)) 10
    { polls := reconstructPolls (pollsQueryRows db filters sort pagination),
      total := 0, page := page, limit := limit }

/-! Concrete store states used by counterexamples and witnesses. -/

/-- An active poll that allows multiple votes. -/
def pollA : PollRow :=
  { id := "p1", title := "Lunch?", description := none, status := "active",
    created_by := "alice", created_at := "2024-01-01T00:00:00Z",
    updated_at := "2024-01-01T00:00:00Z", expires_at := none,
    allow_multiple_votes := true, is_anonymous := false }

/-- A store holding `pollA` with two options and no votes. -/
def dbA : DB :=
  { polls := [pollA],
    options := [⟨"o1", "p1", "Pizza", 0, "2024-01-01T00:00:00Z"⟩,
                ⟨"o2", "p1", "Salad", 1, "2024-01-01T00:00:00Z"⟩],
    votes := [] }

/-- An active single-vote poll. -/
def pollS : PollRow :=
  { id := "p2", title := "Best time?", description := none, status := "active",
    created_by := "alice", created_at := "2024-01-02T00:00:00Z",
    updated_at := "2024-01-02T00:00:00Z", expires_at := none,
    allow_multiple_votes := false, is_anonymous := false }

/-- A store holding `pollS` with two options and one vote by bob for `o3`. -/
def dbS : DB :=
  { polls := [pollS],
    options := [⟨"o3", "p2", "Morning", 0, "2024-01-02T00:00:00Z"⟩,
                ⟨"o4", "p2", "Evening", 1, "2024-01-02T00:00:00Z"⟩],
    votes := [⟨"p2", "o3", some "bob"⟩] }

/-- An empty store. -/
def db0 : DB :=
  { polls := [], options := [], votes := [] }

/-- A concrete creation request with two option texts. -/
def reqW : CreatePollRequest :=
  { title := "Lunch?", description := none, options := ["Pizza", "Salad"],
    expires_at := none, allow_multiple_votes := none, is_anonymous := none }

/-! Helper lemmas about the vote path. -/

/-- A vote call never touches the `polls` table. -/
theorem vote_polls_eq (db : DB) (now pollId : String) (ids : List String)
    (u : String) : (vote db now pollId ids u).2.polls = db.polls := by
  unfold vote
  cases h : db.polls.find? (fun p => p.id == pollId) with
  | none => rfl
  | some poll =>
    simp only []
    split
    · rfl
    · split
      · rfl
      · split <;> split
        all_goals try rfl
        all_goals split <;> rfl

/-- A batch of one row violates the constraint exactly when it conflicts
with a stored row. -/
theorem batchViolates_singleton (seen : List VoteRow) (v : VoteRow) :
    batchViolates seen [v] = seen.any (fun w => voteKeyConflict v w) := by
  simp [batchViolates]

/-- Two batch rows with conflicting keys violate the constraint whatever is
already stored. -/
theorem batchViolates_pair (seen : List VoteRow) (v1 v2 : VoteRow)
    (rest : List VoteRow) (hconf : voteKeyConflict v2 v1 = true) :
    batchViolates seen (v1 :: v2 :: rest) = true := by
  simp [batchViolates, hconf]

/-- A row surviving the scoped delete cannot conflict with a fresh vote of
the deleted (poll, voter) key. -/
theorem conflict_false_of_kept (pid u o : String) (w : VoteRow)
    (hw : (w.poll_id == pid && w.user_id == some u) = false) :
    voteKeyConflict { poll_id := pid, option_id := o, user_id := some u } w = false := by
  unfold voteKeyConflict
  cases hwu : w.user_id with
  | none => simp
  | some b =>
    rw [hwu] at hw
    by_cases hp : w.poll_id = pid
    · subst hp
      simp only [beq_self_eq_true, Bool.true_and] at hw
      simp only [beq_self_eq_true, Bool.true_and]
      simp only [Option.some_beq_some] at hw
      rcases Bool.eq_false_iff.mp hw with h
      simp only [beq_eq_false_iff_ne] at hw
      simp [beq_eq_false_iff_ne, Ne.symm hw]
    · have : (w.poll_id == pid) = false := by
        simp [beq_eq_false_iff_ne, hp]
      simp [voteKeyConflict, beq_eq_false_iff_ne, Ne.symm hp]

/-- No stored row kept by the scoped delete conflicts with a fresh vote of
that (poll, voter) key. -/
theorem any_conflict_deleteUserVotes (l : List VoteRow) (pid u o : String) :
    ((deleteUserVotes l pid u).any
      (fun w => voteKeyConflict { poll_id := pid, option_id := o, user_id := some u } w)) = false := by
  rw [List.any_eq_false]
  intro w hw
  rw [deleteUserVotes, List.mem_filter] at hw
  have h2 := hw.2
  have hkept : (w.poll_id == pid && w.user_id == some u) = false := by
    cases hb : (w.poll_id == pid && w.user_id == some u)
    · rfl
    · rw [hb] at h2
      simp at h2
  simp [conflict_false_of_kept pid u o w hkept]

/-- The scoped delete commutes with append. -/
theorem deleteUserVotes_append (a b : List VoteRow) (pid u : String) :
    deleteUserVotes (a ++ b) pid u = deleteUserVotes a pid u ++ deleteUserVotes b pid u := by
  simp [deleteUserVotes, List.filter_append]

/-- The scoped delete is idempotent. -/
theorem deleteUserVotes_idem (l : List VoteRow) (pid u : String) :
    deleteUserVotes (deleteUserVotes l pid u) pid u = deleteUserVotes l pid u := by
  simp [deleteUserVotes, List.filter_filter]

/-- The scoped delete wipes the fresh votes of the same (poll, voter) key. -/
theorem deleteUserVotes_newVotes (ids : List String) (pid u : String) :
    deleteUserVotes (votesToInsert pid ids u) pid u = [] := by
  rw [deleteUserVotes, List.filter_eq_nil_iff]
  intro v hv
  rw [votesToInsert, List.mem_map] at hv
  obtain ⟨oid, _, rfl⟩ := hv
  simp

/-- After the scoped delete, no (poll, voter) row remains. -/
theorem votesOf_deleteUserVotes (l : List VoteRow) (pid u : String) :
    (deleteUserVotes l pid u).filter
      (fun v => v.poll_id == pid && v.user_id == some u) = [] := by
  rw [List.filter_eq_nil_iff]
  intro v hv
  rw [deleteUserVotes, List.mem_filter] at hv
  have := hv.2
  intro hcontra
  rw [hcontra] at this
  simp at this

/-- Fresh votes of the (poll, voter) key all survive the `votesOf` filter. -/
theorem filter_newVotes (ids : List String) (pid u : String) :
    (votesToInsert pid ids u).filter
      (fun v => v.poll_id == pid && v.user_id == some u) = votesToInsert pid ids u := by
  rw [List.filter_eq_self]
  intro v hv
  rw [votesToInsert, List.mem_map] at hv
  obtain ⟨oid, _, rfl⟩ := hv
  simp

/-- Unfolding of `vote` on a found, active, unexpired, single-vote poll. -/
theorem vote_single_eq (db : DB) (now pollId u : String) (ids : List String)
    (poll : PollRow)
    (h1 : db.polls.find? (fun p => p.id == pollId) = some poll)
    (hs : poll.status = "active")
    (he : voteExpiredCheck poll.expires_at now = false)
    (ham : poll.allow_multiple_votes = false) :
    vote db now pollId ids u =
      (if batchViolates (deleteUserVotes db.votes pollId u)
          (votesToInsert pollId ids u) then
        (Except.error "Failed to cast vote: duplicate key value violates unique constraint",
         { db with votes := deleteUserVotes db.votes pollId u })
       else if fkViolates db.options (votesToInsert pollId ids u) then
        (Except.error "Failed to cast vote: insert on table votes violates foreign key constraint",
         { db with votes := deleteUserVotes db.votes pollId u })
       else
        (Except.ok (),
         { db with votes := deleteUserVotes db.votes pollId u ++
             votesToInsert pollId ids u })) := by
  simp [vote, h1, hs, he, ham]

/-- Length bound from a conflict-free batch whose rows all share one
(poll, voter) key. -/
theorem length_le_one_of_no_violation (seen : List VoteRow) (ids : List String)
    (pid u : String)
    (h : batchViolates seen (votesToInsert pid ids u) = false) :
    ids.length ≤ 1 := by
  match ids with
  | [] => simp
  | [a] => simp
  | a :: b :: rest =>
    exfalso
    rw [votesToInsert, List.map_cons, List.map_cons] at h
    rw [batchViolates_pair] at h
    · simp at h
    · simp [voteKeyConflict]

/-! Claim theorems for the vote path. -/

/-- C4: a vote call fails with "Poll not found" when the poll is absent,
with "Poll is not active" when its status is anything except `active`
(checked before expiry, so also for an expired draft or closed poll), and
with "Poll has expired" when it is active with an expiry in the past; in
each failure case the store is unchanged, so no vote row is inserted and
none is deleted. -/
theorem vote_failure_cases (db : DB) (now pollId userId : String)
    (optionIds : List String) :
    (db.polls.find? (fun p => p.id == pollId) = none →
      vote db now pollId optionIds userId = (Except.error "Poll not found", db)) ∧
    (∀ poll, db.polls.find? (fun p => p.id == pollId) = some poll →
      poll.status ≠ "active" →
      vote db now pollId optionIds userId = (Except.error "Poll is not active", db)) ∧
    (∀ poll e, db.polls.find? (fun p => p.id == pollId) = some poll →
      poll.status = "active" → poll.expires_at = some e → dateLt e now = true →
      vote db now pollId optionIds userId = (Except.error "Poll has expired", db)) := by
  refine ⟨fun h => ?_, fun poll h hstat => ?_, fun poll e h hstat hexp hlt => ?_⟩
  · simp [vote, h]
  · simp [vote, h, bne_iff_ne, hstat]
  · simp [vote, h, hstat, voteExpiredCheck, hexp, hlt]

/-- C4 witness: the three failure cases at concrete inputs. -/
theorem vote_failure_cases_witness :
    vote dbA "2024-02-01T00:00:00Z" "nope" ["o1"] "bob" =
      (Except.error "Poll not found", dbA) ∧
    vote { dbA with polls := [{ pollA with status := "draft" }] }
        "2024-02-01T00:00:00Z" "p1" ["o1"] "bob" =
      (Except.error "Poll is not active",
       { dbA with polls := [{ pollA with status := "draft" }] }) ∧
    vote { dbA with polls := [{ pollA with expires_at := some "2024-01-15T00:00:00Z" }] }
        "2024-02-01T00:00:00Z" "p1" ["o1"] "bob" =
      (Except.error "Poll has expired",
       { dbA with polls := [{ pollA with expires_at := some "2024-01-15T00:00:00Z" }] }) := by
  refine ⟨?_, ?_, ?_⟩
  · exact (vote_failure_cases dbA "2024-02-01T00:00:00Z" "nope" "bob" ["o1"]).1 (by rfl)
  · exact (vote_failure_cases _ "2024-02-01T00:00:00Z" "p1" "bob" ["o1"]).2.1
      { pollA with status := "draft" } (by rfl) (by decide)
  · exact (vote_failure_cases _ "2024-02-01T00:00:00Z" "p1" "bob" ["o1"]).2.2
      { pollA with expires_at := some "2024-01-15T00:00:00Z" }
      "2024-01-15T00:00:00Z" (by rfl) (by rfl) (by rfl) (by decide)

/-- C1: the schema constraint `UNIQUE(poll_id, user_id)` is unconditional,
so on a poll with `allow_multiple_votes = true` a voter CANNOT accumulate
two votes: a second vote call for a different option fails with a unique
violation and stores nothing, and a single call listing two options fails
as a whole and stores nothing.  This contradicts the stated behaviour and
the constraint comment of the migration itself ("unless multiple votes
allowed"), which the schema does not implement. -/
theorem vote_multi_second_option_violates_unique :
    ((vote (vote dbA "2024-02-01T00:00:00Z" "p1" ["o1"] "bob").2
        "2024-02-01T00:00:00Z" "p1" ["o2"] "bob").1 =
      Except.error "Failed to cast vote: duplicate key value violates unique constraint" ∧
     (vote (vote dbA "2024-02-01T00:00:00Z" "p1" ["o1"] "bob").2
        "2024-02-01T00:00:00Z" "p1" ["o2"] "bob").2.votes =
      [{ poll_id := "p1", option_id := "o1", user_id := some "bob" }]) ∧
    ((vote dbA "2024-02-01T00:00:00Z" "p1" ["o1", "o2"] "bob").1 =
      Except.error "Failed to cast vote: duplicate key value violates unique constraint" ∧
     (vote dbA "2024-02-01T00:00:00Z" "p1" ["o1", "o2"] "bob").2.votes = []) := by
  exact ⟨⟨rfl, rfl⟩, ⟨rfl, rfl⟩⟩


/-- Singleton unfolding of `votesToInsert`. -/
theorem votesToInsert_singleton (pid o u : String) :
    votesToInsert pid [o] u =
      [{ poll_id := pid, option_id := o, user_id := some u : VoteRow }] := rfl

/-- A single-row insert for a (poll, voter) key whose rows were just deleted
never violates the constraint. -/
theorem batchViolates_single_after_delete (l : List VoteRow) (pid o u : String) :
    batchViolates (deleteUserVotes l pid u) (votesToInsert pid [o] u) = false := by
  rw [votesToInsert_singleton, batchViolates_singleton, any_conflict_deleteUserVotes]

/-- A single-row insert for a stored option id satisfies the option foreign
key. -/
theorem fkViolates_singleton (options : List OptionRow) (pid o u : String)
    (ho : options.any (fun q => q.id == o) = true) :
    fkViolates options (votesToInsert pid [o] u) = false := by
  simp [fkViolates, votesToInsert, ho]

/-- C2: on a single-vote poll (found, active, unexpired), every successful
vote call leaves at most one stored vote for that (poll, voter); casting a
vote for the stored option `o1` and then a vote for the stored option `o2`
both succeed and leave exactly one stored vote for the voter on the poll,
holding the second option. -/
theorem vote_single_choice_revote_keeps_second
    (db : DB) (now pollId u o1 o2 : String) (poll : PollRow)
    (h1 : db.polls.find? (fun p => p.id == pollId) = some poll)
    (hs : poll.status = "active")
    (he : voteExpiredCheck poll.expires_at now = false)
    (ham : poll.allow_multiple_votes = false)
    (ho1 : db.options.any (fun q => q.id == o1) = true)
    (ho2 : db.options.any (fun q => q.id == o2) = true) :
    (∀ ids, (vote db now pollId ids u).1 = Except.ok () →
      (votesOf (vote db now pollId ids u).2 pollId u).length ≤ 1) ∧
    ((vote db now pollId [o1] u).1 = Except.ok () ∧
     (vote (vote db now pollId [o1] u).2 now pollId [o2] u).1 = Except.ok () ∧
     votesOf (vote (vote db now pollId [o1] u).2 now pollId [o2] u).2 pollId u =
       votesToInsert pollId [o2] u) := by
  have hfirst : ∀ o : String, db.options.any (fun q => q.id == o) = true →
      vote db now pollId [o] u =
      (Except.ok (),
       { db with votes := deleteUserVotes db.votes pollId u ++ votesToInsert pollId [o] u }) := by
    intro o ho
    rw [vote_single_eq db now pollId u [o] poll h1 hs he ham]
    rw [if_neg (by simp [batchViolates_single_after_delete])]
    rw [if_neg (by simp [fkViolates_singleton db.options pollId o u ho])]
  constructor
  · intro ids hok
    rw [vote_single_eq db now pollId u ids poll h1 hs he ham] at hok ⊢
    by_cases hviol : batchViolates (deleteUserVotes db.votes pollId u)
        (votesToInsert pollId ids u) = true
    · rw [if_pos hviol] at hok
      exact absurd hok (by simp)
    · have hv' := Bool.eq_false_iff.mpr hviol
      rw [if_neg (by simp [hv'])] at hok ⊢
      by_cases hfk : fkViolates db.options (votesToInsert pollId ids u) = true
      · rw [if_pos hfk] at hok
        exact absurd hok (by simp)
      · rw [if_neg hfk]
        simp only [votesOf, List.filter_append]
        rw [votesOf_deleteUserVotes, filter_newVotes]
        simp only [List.nil_append, votesToInsert, List.length_map]
        exact length_le_one_of_no_violation _ ids pollId u hv'
  · have h2 : (vote db now pollId [o1] u).2.votes =
        deleteUserVotes db.votes pollId u ++ votesToInsert pollId [o1] u := by
      rw [hfirst o1 ho1]
    have hpolls : (vote db now pollId [o1] u).2.polls = db.polls := vote_polls_eq _ _ _ _ _
    have hopts : (vote db now pollId [o1] u).2.options = db.options := by
      rw [hfirst o1 ho1]
    have hdel : deleteUserVotes (vote db now pollId [o1] u).2.votes pollId u =
        deleteUserVotes db.votes pollId u := by
      rw [h2, deleteUserVotes_append, deleteUserVotes_idem, deleteUserVotes_newVotes,
        List.append_nil]
    have hnv : batchViolates (deleteUserVotes (vote db now pollId [o1] u).2.votes pollId u)
        (votesToInsert pollId [o2] u) = false := by
      rw [hdel]
      exact batchViolates_single_after_delete db.votes pollId o2 u
    have hstep : vote (vote db now pollId [o1] u).2 now pollId [o2] u =
        (Except.ok (), { (vote db now pollId [o1] u).2 with
          votes := deleteUserVotes db.votes pollId u ++ votesToInsert pollId [o2] u }) := by
      rw [vote_single_eq (vote db now pollId [o1] u).2 now pollId u [o2] poll
        (by rw [hpolls]; exact h1) hs he ham]
      rw [if_neg (by simp [hnv])]
      rw [hopts]
      rw [if_neg (by simp [fkViolates_singleton db.options pollId o2 u ho2])]
      rw [hdel]
      simp [hopts]
    refine ⟨by rw [hfirst o1 ho1], by rw [hstep], ?_⟩
    rw [hstep]
    simp only [votesOf, List.filter_append]
    rw [votesOf_deleteUserVotes]
    simp only [List.nil_append]
    exact filter_newVotes [o2] pollId u

/-- C2 witness: the revote scenario on the concrete single-vote store, using
the two stored options of the poll. -/
theorem vote_single_choice_revote_keeps_second_witness :
    (vote dbS "2024-02-01T00:00:00Z" "p2" ["o4"] "carol").1 = Except.ok () ∧
    votesOf (vote (vote dbS "2024-02-01T00:00:00Z" "p2" ["o4"] "carol").2
        "2024-02-01T00:00:00Z" "p2" ["o3"] "carol").2 "p2" "carol" =
      votesToInsert "p2" ["o3"] "carol" := by
  have h := vote_single_choice_revote_keeps_second dbS "2024-02-01T00:00:00Z"
    "p2" "carol" "o4" "o3" pollS (by rfl) (by rfl) (by rfl) (by rfl) (by rfl) (by rfl)
  exact ⟨h.2.1, h.2.2.2⟩
/-- C8: on a single-vote poll, a vote call is idempotent under retry: the
second identical call returns the same outcome and leaves the same store
state as the first. -/
theorem vote_single_choice_idempotent
    (db : DB) (now pollId u : String) (ids : List String) (poll : PollRow)
    (h1 : db.polls.find? (fun p => p.id == pollId) = some poll)
    (ham : poll.allow_multiple_votes = false) :
    vote (vote db now pollId ids u).2 now pollId ids u = vote db now pollId ids u := by
  by_cases hs : poll.status = "active"
  · by_cases he : voteExpiredCheck poll.expires_at now = true
    · have hfail : vote db now pollId ids u = (Except.error "Poll has expired", db) := by
        simp [vote, h1, hs, he]
      rw [hfail]
      exact hfail
    · have he' : voteExpiredCheck poll.expires_at now = false := by
        cases hx : voteExpiredCheck poll.expires_at now
        · rfl
        · exact absurd hx he
      have heq := vote_single_eq db now pollId u ids poll h1 hs he' ham
      have hpolls : (vote db now pollId ids u).2.polls = db.polls := vote_polls_eq _ _ _ _ _
      have heq2 := vote_single_eq (vote db now pollId ids u).2 now pollId u ids poll
        (by rw [hpolls]; exact h1) hs he' ham
      by_cases hB : batchViolates (deleteUserVotes db.votes pollId u)
          (votesToInsert pollId ids u) = true
      · have hS : vote db now pollId ids u =
            (Except.error "Failed to cast vote: duplicate key value violates unique constraint",
             { db with votes := deleteUserVotes db.votes pollId u }) :=
          heq.trans (if_pos hB)
        have hv2 : (vote db now pollId ids u).2.votes = deleteUserVotes db.votes pollId u := by
          rw [hS]
        have hdel2 : deleteUserVotes (vote db now pollId ids u).2.votes pollId u =
            deleteUserVotes db.votes pollId u := by
          rw [hv2, deleteUserVotes_idem]
        rw [heq2, hdel2, if_pos hB, hS]
      · by_cases hF : fkViolates db.options (votesToInsert pollId ids u) = true
        · have hS : vote db now pollId ids u =
              (Except.error
                "Failed to cast vote: insert on table votes violates foreign key constraint",
               { db with votes := deleteUserVotes db.votes pollId u }) :=
            heq.trans (by rw [if_neg hB, if_pos hF])
          have hv2 : (vote db now pollId ids u).2.votes =
              deleteUserVotes db.votes pollId u := by
            rw [hS]
          have hopt2 : (vote db now pollId ids u).2.options = db.options := by
            rw [hS]
          have hdel2 : deleteUserVotes (vote db now pollId ids u).2.votes pollId u =
              deleteUserVotes db.votes pollId u := by
            rw [hv2, deleteUserVotes_idem]
          rw [heq2, hdel2, if_neg hB, hopt2, if_pos hF, hS]
        · have hS : vote db now pollId ids u =
              (Except.ok (),
               { db with votes := deleteUserVotes db.votes pollId u ++
                   votesToInsert pollId ids u }) :=
            heq.trans (by rw [if_neg hB, if_neg hF])
          have hv2 : (vote db now pollId ids u).2.votes =
              deleteUserVotes db.votes pollId u ++ votesToInsert pollId ids u := by
            rw [hS]
          have hopt2 : (vote db now pollId ids u).2.options = db.options := by
            rw [hS]
          have hdel2 : deleteUserVotes (vote db now pollId ids u).2.votes pollId u =
              deleteUserVotes db.votes pollId u := by
            rw [hv2, deleteUserVotes_append, deleteUserVotes_idem, deleteUserVotes_newVotes,
              List.append_nil]
          rw [heq2, hdel2, if_neg hB, hopt2, if_neg hF, hS]
  · have hfail : vote db now pollId ids u = (Except.error "Poll is not active", db) :=
      (vote_failure_cases db now pollId u ids).2.1 poll h1 hs
    rw [hfail]
    exact hfail

/-- C8 witness: retrying a successful single-choice vote on the concrete
store repeats the same outcome and state. -/
theorem vote_single_choice_idempotent_witness :
    vote (vote dbS "2024-02-01T00:00:00Z" "p2" ["o4"] "bob").2
        "2024-02-01T00:00:00Z" "p2" ["o4"] "bob" =
      vote dbS "2024-02-01T00:00:00Z" "p2" ["o4"] "bob" :=
  vote_single_choice_idempotent dbS "2024-02-01T00:00:00Z" "p2" "bob" ["o4"]
    pollS (by rfl) (by rfl)

/-- C9 counterexample: on the single-vote poll `p2` where bob already has a
stored vote for `o3`, a single call listing the two options `o3`, `o4` does
NOT insert two vote rows: the batch insert violates
`UNIQUE(poll_id, user_id)`, the call raises, and since the scoped delete has
already run, bob is left with no vote at all. -/
theorem vote_single_choice_two_options_not_stored :
    (vote dbS "2024-02-01T00:00:00Z" "p2" ["o3", "o4"] "bob").1 =
      Except.error "Failed to cast vote: duplicate key value violates unique constraint" ∧
    votesOf (vote dbS "2024-02-01T00:00:00Z" "p2" ["o3", "o4"] "bob").2 "p2" "bob" = [] := by
  exact ⟨rfl, rfl⟩

/-- C9 (amended): on a found, active, unexpired single-vote poll, a vote
call listing two or more option ids is not length-validated by the service,
but the insert of several rows sharing one (poll, voter) key violates the
unique constraint: the call raises and, the scoped delete having already
run, the voter ends with zero stored votes on the poll. -/
theorem vote_single_choice_multi_option_fails_empty
    (db : DB) (now pollId u : String) (ids : List String) (poll : PollRow)
    (h1 : db.polls.find? (fun p => p.id == pollId) = some poll)
    (hs : poll.status = "active")
    (he : voteExpiredCheck poll.expires_at now = false)
    (ham : poll.allow_multiple_votes = false)
    (hlen : 2 ≤ ids.length) :
    (vote db now pollId ids u).1 =
      Except.error "Failed to cast vote: duplicate key value violates unique constraint" ∧
    votesOf (vote db now pollId ids u).2 pollId u = [] := by
  rcases ids with _ | ⟨a, _ | ⟨b, rest⟩⟩
  · simp at hlen
  · simp at hlen
  · have hB : batchViolates (deleteUserVotes db.votes pollId u)
        (votesToInsert pollId (a :: b :: rest) u) = true := by
      rw [votesToInsert, List.map_cons, List.map_cons]
      exact batchViolates_pair _ _ _ _ (by simp [voteKeyConflict])
    rw [vote_single_eq db now pollId u (a :: b :: rest) poll h1 hs he ham, if_pos hB]
    exact ⟨rfl, votesOf_deleteUserVotes db.votes pollId u⟩

/-- C9 witness: the amended behaviour at the concrete store. -/
theorem vote_single_choice_multi_option_fails_empty_witness :
    (vote dbS "2024-02-01T00:00:00Z" "p2" ["o3", "o4"] "carol").1 =
      Except.error "Failed to cast vote: duplicate key value violates unique constraint" ∧
    votesOf (vote dbS "2024-02-01T00:00:00Z" "p2" ["o3", "o4"] "carol").2 "p2" "carol" = [] :=
  vote_single_choice_multi_option_fails_empty dbS "2024-02-01T00:00:00Z" "p2"
    "carol" ["o3", "o4"] pollS (by rfl) (by rfl) (by rfl) (by rfl) (by decide)

/-- The not-yet-expired test holds exactly when no expiry is set or the
expiry is strictly in the future. -/
theorem notYetExpired_iff (ea : Option String) (now : String) :
    notYetExpired ea now = true ↔
      (ea = none ∨ ∃ e, ea = some e ∧ dateLt now e = true) := by
  cases ea <;> simp [notYetExpired]

/-- On a healthy store, a found poll is returned and its `user_can_vote`
field is the `userCanVote` computation on the truthiness-normalised voter
identity. -/
theorem getPollById_found (db : DB) (now id : String) (userId : Option String)
    (pollData : PollRow)
    (h : db.polls.find? (fun p => p.id == id) = some pollData) :
    ∃ pr, getPollById db now id userId false = some pr ∧
      pr.user_can_vote = userCanVote pollData db now id
        (if jsFalsy userId then none else userId) := by
  unfold getPollById
  rw [if_neg (by simp), h]
  exact ⟨_, rfl, rfl⟩

/-- The `userCanVote` computation, as a proposition over the raw optional
identity. -/
theorem userCanVote_iff (pollData : PollRow) (db : DB) (now id : String)
    (userId : Option String) :
    userCanVote pollData db now id
        (if jsFalsy userId then none else userId) = true ↔
      ∃ u, userId = some u ∧ u ≠ "" ∧ pollData.status = "active" ∧
        (pollData.expires_at = none ∨
          ∃ e, pollData.expires_at = some e ∧ dateLt now e = true) ∧
        (pollData.allow_multiple_votes = true ∨ votesOf db id u = []) := by
  rcases userId with _ | s
  · simp [jsFalsy, userCanVote]
  · by_cases hs0 : s = ""
    · subst hs0
      simp [jsFalsy, userCanVote]
    · have hfal : jsFalsy (some s) = false := by simp [jsFalsy, hs0]
      rw [hfal]
      simp only [Bool.false_eq_true, if_false]
      rw [show userCanVote pollData db now id (some s) =
          (pollData.status == "active" &&
           notYetExpired pollData.expires_at now &&
           (pollData.allow_multiple_votes ||
             ((db.votes.filter (fun v => v.poll_id == id && v.user_id == some s)).map
               (fun v => v.option_id)).length == 0)) from rfl]
      simp [Bool.and_eq_true, Bool.or_eq_true, beq_iff_eq, notYetExpired_iff,
        List.length_eq_zero, List.map_eq_nil_iff, votesOf, hs0, and_assoc]

/-- C3: for a poll returned by `getPollById`, `user_can_vote` is true
exactly when a non-empty voter identity was supplied AND the poll status is
`active` AND (no expiry is set OR the expiry is strictly in the future) AND
(the poll allows multiple votes OR the voter has zero stored votes on this
poll); in particular it is false without an identity, for a non-active
status, for a past expiry, or when multiple votes are disallowed and the
voter already voted. -/
theorem getPollById_user_can_vote_iff
    (db : DB) (now id : String) (userId : Option String) (pollData : PollRow)
    (h : db.polls.find? (fun p => p.id == id) = some pollData) :
    ∃ pr, getPollById db now id userId false = some pr ∧
      (pr.user_can_vote = true ↔
        ∃ u, userId = some u ∧ u ≠ "" ∧ pollData.status = "active" ∧
          (pollData.expires_at = none ∨
            ∃ e, pollData.expires_at = some e ∧ dateLt now e = true) ∧
          (pollData.allow_multiple_votes = true ∨ votesOf db id u = [])) := by
  obtain ⟨pr, hpr, hcv⟩ := getPollById_found db now id userId pollData h
  exact ⟨pr, hpr, by rw [hcv]; exact userCanVote_iff pollData db now id userId⟩

/-- C3 witness: carol (who has no vote on the single-vote poll `p2`) is
reported able to vote. -/
theorem getPollById_user_can_vote_iff_witness :
    ∃ pr, getPollById dbS "2024-02-01T00:00:00Z" "p2" (some "carol") false = some pr ∧
      pr.user_can_vote = true := by
  obtain ⟨pr, hpr, hiff⟩ := getPollById_user_can_vote_iff dbS "2024-02-01T00:00:00Z"
    "p2" (some "carol") pollS (by rfl)
  exact ⟨pr, hpr, hiff.mpr ⟨"carol", rfl, by decide, by rfl, Or.inl (by rfl),
    Or.inr (by rfl)⟩⟩

/-- C7 counterexample: the poll `p2` is present in the store, yet a store
failure on the poll-row fetch makes `getPollById` return null — the source
collapses `pollError` and absence into the same null result
(`if (pollError || !pollData) return null`), so callers cannot distinguish
not-found from a poll-fetch transport failure. -/
theorem getPollById_fault_returns_none :
    dbS.polls.find? (fun p => p.id == "p2") = some pollS ∧
    getPollById dbS "2024-02-01T00:00:00Z" "p2" none true = none := ⟨rfl, rfl⟩

/-- C7 (amended): on a healthy store `getPollById` returns null exactly
when the poll row is absent; but a store failure on the poll-row fetch is
ALSO reported as null, not raised. -/
theorem getPollById_none_iff_absent_or_fault (db : DB) (now id : String)
    (userId : Option String) :
    (getPollById db now id userId false = none ↔
      db.polls.find? (fun p => p.id == id) = none) ∧
    getPollById db now id userId true = none := by
  refine ⟨⟨fun hnone => ?_, fun hf => ?_⟩, rfl⟩
  · cases hf : db.polls.find? (fun p => p.id == id) with
    | none => rfl
    | some pollData =>
      rw [getPollById, if_neg (by simp), hf] at hnone
      exact absurd hnone (by simp)
  · rw [getPollById, if_neg (by simp), hf]

/-- C5 counterexample: deleting the poll `p2` (owned by alice) as bob does
NOT fail: the scoped delete matches zero rows, which is not a store error,
so the call completes without error (and removes nothing).  The "fails with
a combined error" part of the claim holds for updates only. -/
theorem deletePoll_by_nonowner_succeeds :
    pollS.created_by = "alice" ∧
    deletePoll dbS "p2" "bob" = (Except.ok (), dbS) := ⟨rfl, rfl⟩

/-- C5 (amended): when no poll row matches both the id and the requester
(poll absent, or requester is not the creator), `updatePoll` fails with the
single combined not-found-or-not-permitted error — the same error value in
both cases, so nothing is disclosed — and the store is unchanged;
`deletePoll` under the same condition completes without error and leaves
the store unchanged. -/
theorem update_delete_zero_match_behavior
    (db : DB) (now id userId : String) (updates : UpdatePollRequest)
    (options : Option (List OptionInput)) (genIds : List String)
    (h : db.polls.find? (fun p => p.id == id && p.created_by == userId) = none) :
    updatePoll db now id updates options genIds userId =
      (Except.error "Poll not found or you do not have permission to update it", db) ∧
    deletePoll db id userId = (Except.ok (), db) := by
  have hall : ∀ p ∈ db.polls, (p.id == id && p.created_by == userId) = false := by
    intro p hp
    have hnp := List.find?_eq_none.mp h p hp
    cases hb : (p.id == id && p.created_by == userId)
    · rfl
    · exact absurd hb hnp
  constructor
  · rw [updatePoll, h]
  · have hrem : db.polls.filter (fun p => p.id == id && p.created_by == userId) = [] := by
      rw [List.filter_eq_nil_iff]
      intro p hp
      simp [hall p hp]
    have hpolls : db.polls.filter
        (fun p => !(p.id == id && p.created_by == userId)) = db.polls := by
      rw [List.filter_eq_self]
      intro p hp
      simp [hall p hp]
    rw [deletePoll]
    rw [hrem, hpolls]
    simp

/-- C5 witness: bob can neither update nor delete the poll `p2` owned by
alice; the update raises the combined error and the store is untouched. -/
theorem update_delete_zero_match_behavior_witness :
    updatePoll dbS "2024-03-01T00:00:00Z" "p2" ⟨none, none, none, none, none, none⟩
        none [] "bob" =
      (Except.error "Poll not found or you do not have permission to update it", dbS) ∧
    deletePoll dbS "p2" "bob" = (Except.ok (), dbS) :=
  update_delete_zero_match_behavior dbS "2024-03-01T00:00:00Z" "p2" "bob"
    ⟨none, none, none, none, none, none⟩ none [] (by rfl)

/-- On the success path, `createPoll` appends the freshly built option rows
to the options table. -/
theorem createPoll_success_options (db : DB) (req : CreatePollRequest)
    (userId newPollId now : String) (genOptionIds : List String) :
    (createPoll db req userId newPollId genOptionIds now false).2.options =
      db.options ++ (req.options.enum.zip genOptionIds).map (fun x =>
        { id := x.2, poll_id := newPollId, text := x.1.2, position := x.1.1,
          created_at := now : OptionRow }) := rfl

/-- C6: if the option insert of `createPoll` fails, the call raises a
creation failure and the just-inserted poll row is deleted again, so a
subsequent fetch of the new poll id reports not-found; on the success path
one option row is stored per input text, with position equal to the index
of the text in the request. -/
theorem createPoll_rollback_and_option_positions
    (db : DB) (req : CreatePollRequest) (userId newPollId now : String)
    (genOptionIds : List String)
    (hfreshp : ∀ p ∈ db.polls, p.id ≠ newPollId)
    (hfresho : ∀ o ∈ db.options, o.poll_id ≠ newPollId)
    (hlen : genOptionIds.length = req.options.length) :
    ((createPoll db req userId newPollId genOptionIds now true).1 =
        Except.error "Failed to create poll options" ∧
      getPollById (createPoll db req userId newPollId genOptionIds now true).2
        now newPollId none false = none) ∧
    ((createPoll db req userId newPollId genOptionIds now false).2.options.filter
        (fun o => o.poll_id == newPollId)).map (fun o => (o.text, o.position)) =
      req.options.enum.map (fun it => (it.2, it.1)) := by
  have hppred : ∀ p ∈ db.polls, ((fun p => p.id == newPollId) p) = false := by
    intro p hp
    simp [beq_eq_false_iff_ne, hfreshp p hp]
  constructor
  · constructor
    · rfl
    · have hpolls : (createPoll db req userId newPollId genOptionIds now true).2.polls =
          db.polls := by
        show ((db.polls ++ [_]).filter (fun p => !(p.id == newPollId))) = db.polls
        rw [List.filter_append]
        rw [List.filter_eq_self.mpr (by intro p hp; simp [hfreshp p hp])]
        rw [show (List.filter (fun p => !(p.id == newPollId))
            [({ id := newPollId, title := req.title, description := req.description,
                status := "active", created_by := userId, created_at := now,
                updated_at := now, expires_at := req.expires_at,
                allow_multiple_votes := req.allow_multiple_votes.getD false,
                is_anonymous := req.is_anonymous.getD false } : PollRow)]) = [] by simp]
        rw [List.append_nil]
      have hfind : (createPoll db req userId newPollId genOptionIds now true).2.polls.find?
          (fun p => p.id == newPollId) = none := by
        rw [hpolls, List.find?_eq_none]
        intro p hp
        simp [hfreshp p hp]
      rw [getPollById, if_neg (by simp), hfind]
  · rw [createPoll_success_options]
    rw [List.filter_append]
    rw [List.filter_eq_nil_iff.mpr (by intro o ho; simp [hfresho o ho])]
    rw [List.nil_append]
    rw [List.filter_eq_self.mpr ?hkeep]
    case hkeep =>
      intro o ho
      rw [List.mem_map] at ho
      obtain ⟨x, _, rfl⟩ := ho
      simp
    rw [List.map_map]
    have hfst : (req.options.enum.zip genOptionIds).map Prod.fst = req.options.enum := by
      apply List.map_fst_zip
      rw [List.enum_length]
      exact hlen.ge
    conv_rhs => rw [← hfst, List.map_map]
    rfl

/-- C6 witness: the rollback and the option positions for a concrete
request on the empty store. -/
theorem createPoll_rollback_and_option_positions_witness :
    ((createPoll db0 reqW "alice" "pw" ["n1", "n2"] "2024-01-01T00:00:00Z" true).1 =
        Except.error "Failed to create poll options" ∧
      getPollById (createPoll db0 reqW "alice" "pw" ["n1", "n2"]
        "2024-01-01T00:00:00Z" true).2 "2024-01-01T00:00:00Z" "pw" none false = none) ∧
    ((createPoll db0 reqW "alice" "pw" ["n1", "n2"]
        "2024-01-01T00:00:00Z" false).2.options.filter
        (fun o => o.poll_id == "pw")).map (fun o => (o.text, o.position)) =
      [("Pizza", 0), ("Salad", 1)] := by
  have h := createPoll_rollback_and_option_positions db0 reqW "alice" "pw"
    "2024-01-01T00:00:00Z" ["n1", "n2"] (by intro p hp; simp [db0] at hp)
    (by intro o ho; simp [db0] at ho) (by rfl)
  exact ⟨h.1, h.2.trans (by rfl)⟩

/-! Helper lemmas for the view-based listing path. -/

/-- Membership through ordered insertion. -/
theorem mem_orderedInsertBy (le : α → α → Bool) (a x : α) (l : List α) :
    x ∈ orderedInsertBy le a l ↔ x = a ∨ x ∈ l := by
  induction l with
  | nil => simp [orderedInsertBy]
  | cons b t ih =>
    rw [orderedInsertBy]
    split
    · simp only [List.mem_cons]
    · simp only [List.mem_cons, ih]
      tauto

/-- The insertion sort keeps exactly the members of its input. -/
theorem mem_insertionSortBy (le : α → α → Bool) (x : α) (l : List α) :
    x ∈ insertionSortBy le l ↔ x ∈ l := by
  induction l with
  | nil => simp [insertionSortBy]
  | cons a t ih =>
    rw [insertionSortBy, mem_orderedInsertBy]
    simp [ih]

/-- An optional filter stage only drops rows. -/
theorem mem_applyOptFilter (test : β → α → Bool) (o : Option β) (l : List α)
    (x : α) (h : x ∈ applyOptFilter test o l) : x ∈ l := by
  cases o
  · exact h
  · exact (List.mem_filter.mp h).1

/-- The filter pipeline of `getPolls` only drops rows. -/
theorem mem_filterRows (filters : Option PollFilters) (rows : List PollResultRow)
    (r : PollResultRow) (h : r ∈ filterRows filters rows) : r ∈ rows := by
  rw [filterRows] at h
  exact mem_applyOptFilter _ _ _ _ (mem_applyOptFilter _ _ _ _
    (mem_applyOptFilter _ _ _ _ (mem_applyOptFilter _ _ _ _ h)))

/-- Every row handed to the reconstruction loop comes from the view. -/
theorem mem_pollsQueryRows (db : DB) (filters : Option PollFilters)
    (sort : Option PollSort) (pagination : Option PaginationParams)
    (r : PollResultRow) (h : r ∈ pollsQueryRows db filters sort pagination) :
    r ∈ pollResultsView db := by
  simp only [pollsQueryRows] at h
  have h1 := List.drop_subset _ _ (List.take_subset _ _ h)
  have h2 : r ∈ filterRows filters (pollResultsView db) := by
    rcases sort with _ | s
    · exact (mem_insertionSortBy _ _ _).mp h1
    · exact (mem_insertionSortBy _ _ _).mp h1
  exact mem_filterRows _ _ _ h2

/-- Every view row of a poll carries the total vote count of that poll. -/
theorem pollResultsView_shape (db : DB) (pid : String) :
    ∀ r ∈ pollResultsView db, r.poll_id = some pid →
      r.total_votes = some ((db.votes.filter (fun v => v.poll_id == pid)).length) := by
  intro r hr hpid
  simp only [pollResultsView] at hr
  rw [List.mem_flatMap] at hr
  obtain ⟨p, _, hrmem⟩ := hr
  split at hrmem
  · rw [List.mem_singleton] at hrmem
    subst hrmem
    simp only at hpid
    rw [Option.some_inj] at hpid
    subst hpid
    rfl
  · rw [List.mem_map] at hrmem
    obtain ⟨o, _, rfl⟩ := hrmem
    simp only at hpid
    rw [Option.some_inj] at hpid
    subst hpid
    rfl

/-- A falsy optional string is `none` or the empty string. -/
theorem jsFalsy_false_iff (o : Option String) :
    jsFalsy o = false ↔ ∃ s, o = some s ∧ s ≠ "" := by
  cases o <;> simp [jsFalsy]

/-- One loop step preserves the placeholder fields of every entry. -/
theorem reconstructStep_placeholders (acc : List PollWithResults)
    (row : PollResultRow)
    (hacc : ∀ p ∈ acc, placeholderFields p) :
    ∀ p ∈ reconstructStep acc row, placeholderFields p := by
  intro p hp
  simp only [reconstructStep] at hp
  split at hp
  · exact hacc p hp
  · split at hp
    · -- option id falsy: p comes from acc possibly extended with the base entry
      split at hp
      · exact hacc p hp
      · rw [List.mem_append, List.mem_singleton] at hp
        rcases hp with hp | rfl
        · exact hacc p hp
        · exact ⟨rfl, rfl, rfl, rfl⟩
    · -- option push: fields other than poll_options are untouched
      rw [List.mem_map] at hp
      obtain ⟨q, hq, rfl⟩ := hp
      have hq' : placeholderFields q := by
        split at hq
        · exact hacc q hq
        · rw [List.mem_append, List.mem_singleton] at hq
          rcases hq with hq | rfl
          · exact hacc q hq
          · exact ⟨rfl, rfl, rfl, rfl⟩
      split
      · exact hq'
      · exact hq'

/-- Every poll produced by the reconstruction loop carries the placeholder
fields. -/
theorem reconstructPolls_placeholders (rows : List PollResultRow) :
    ∀ p ∈ reconstructPolls rows, placeholderFields p := by
  rw [reconstructPolls]
  suffices h : ∀ acc, (∀ p ∈ acc, placeholderFields p) →
      ∀ p ∈ rows.foldl reconstructStep acc, placeholderFields p by
    exact h [] (by simp)
  induction rows with
  | nil =>
    intro acc hacc
    simpa using hacc
  | cons r t ih =>
    intro acc hacc
    rw [List.foldl_cons]
    exact ih _ (reconstructStep_placeholders acc r hacc)

/-- One loop step preserves the empty-options invariant for a poll id whose
processed rows never carry an option id and always carry total `t`. -/
theorem reconstructStep_empty_options (pid : String) (t : Nat)
    (acc : List PollWithResults) (row : PollResultRow)
    (hrow : row.poll_id = some pid → row.option_id = none ∧ row.total_votes = some t)
    (hacc : ∀ p ∈ acc, p.id = pid → p.poll_options = [] ∧ p.total_votes = t) :
    ∀ p ∈ reconstructStep acc row, p.id = pid →
      p.poll_options = [] ∧ p.total_votes = t := by
  intro p hp hpid
  simp only [reconstructStep] at hp
  split at hp
  · exact hacc p hp hpid
  case isFalse hfal =>
    have hfal' : jsFalsy row.poll_id = false := by
      cases hb : jsFalsy row.poll_id
      · rfl
      · exact absurd hb hfal
    obtain ⟨s, hps, hs0⟩ := (jsFalsy_false_iff row.poll_id).mp hfal'
    have hgd : row.poll_id.getD "" = s := by rw [hps]; rfl
    split at hp
    case isTrue hopt =>
      split at hp
      · exact hacc p hp hpid
      · rw [List.mem_append, List.mem_singleton] at hp
        rcases hp with hp | rfl
        · exact hacc p hp hpid
        · refine ⟨rfl, ?_⟩
          have hspid : s = pid := by rw [← hgd]; exact hpid
          have hr := hrow (by rw [hps, hspid])
          show row.total_votes.getD 0 = t
          rw [hr.2]
          rfl
    case isFalse hopt =>
      have hopt' : jsFalsy row.option_id = false := by
        cases hb : jsFalsy row.option_id
        · rfl
        · exact absurd hb hopt
      obtain ⟨d, hd, hd0⟩ := (jsFalsy_false_iff row.option_id).mp hopt'
      rw [List.mem_map] at hp
      obtain ⟨q, hq, rfl⟩ := hp
      have hqinv : q.id = pid → q.poll_options = [] ∧ q.total_votes = t := by
        intro hqid
        split at hq
        · exact hacc q hq hqid
        · rw [List.mem_append, List.mem_singleton] at hq
          rcases hq with hq | rfl
          · exact hacc q hq hqid
          · refine ⟨rfl, ?_⟩
            have hspid : s = pid := by rw [← hgd]; exact hqid
            have hr := hrow (by rw [hps, hspid])
            show row.total_votes.getD 0 = t
            rw [hr.2]
            rfl
      by_cases hqi : (q.id == row.poll_id.getD "") = true
      · rw [if_pos hqi] at hpid
        have hqid : q.id = pid := hpid
        have hspid : s = pid := by
          rw [← hgd]
          rw [← (beq_iff_eq.mp hqi)]
          exact hqid
        have hr := hrow (by rw [hps, hspid])
        rw [hd] at hr
        exact absurd hr.1 (by simp)
      · rw [if_neg hqi] at hpid ⊢
        exact hqinv hpid

/-- The reconstruction loop sends a poll id whose rows never carry an
option id to an entry with no options and the row total. -/
theorem reconstructPolls_empty_options (pid : String) (t : Nat)
    (rows : List PollResultRow)
    (hrows : ∀ r ∈ rows, r.poll_id = some pid →
      r.option_id = none ∧ r.total_votes = some t) :
    ∀ p ∈ reconstructPolls rows, p.id = pid →
      p.poll_options = [] ∧ p.total_votes = t := by
  rw [reconstructPolls]
  suffices h : ∀ (l : List PollResultRow) (acc : List PollWithResults),
      (∀ r ∈ l, r.poll_id = some pid →
      r.option_id = none ∧ r.total_votes = some t) →
      (∀ p ∈ acc, p.id = pid → p.poll_options = [] ∧ p.total_votes = t) →
      ∀ p ∈ l.foldl reconstructStep acc, p.id = pid →
        p.poll_options = [] ∧ p.total_votes = t by
    exact h rows [] hrows (by simp)
  intro l
  induction l with
  | nil =>
    intro acc _ hacc
    simpa using hacc
  | cons r tl ih =>
    intro acc hl hacc
    rw [List.foldl_cons]
    exact ih _ (fun x hx => hl x (List.mem_cons_of_mem _ hx))
      (reconstructStep_empty_options pid t acc r (hl r (List.mem_cons_self _ _)) hacc)

/-- C10: for a `getPolls` call without a (truthy) creator filter, every
returned poll record carries the placeholder values `created_by = ""`,
`updated_at = ""`, `allow_multiple_votes = false`, `is_anonymous = false`
(the view omits those fields); and every returned poll whose view rows
carry no option id comes back with an empty options list and with
`total_votes` equal to the view total for that poll — the stored vote count
of the poll, which is zero when it has no votes. -/
theorem getPolls_view_placeholders_and_empty_options
    (db : DB) (filters : Option PollFilters) (sort : Option PollSort)
    (pagination : Option PaginationParams)
    (hnc : jsFalsy (createdByFilter filters) = true) :
    (∀ p ∈ (getPolls db filters sort pagination).polls, placeholderFields p) ∧
    (∀ p ∈ (getPolls db filters sort pagination).polls,
      (∀ r ∈ pollResultsView db, r.poll_id = some p.id → r.option_id = none) →
      p.poll_options = [] ∧
        p.total_votes = (db.votes.filter (fun v => v.poll_id == p.id)).length) := by
  have hpolls : (getPolls db filters sort pagination).polls =
      reconstructPolls (pollsQueryRows db filters sort pagination) := by
    rw [getPolls, hnc]
    rfl
  rw [hpolls]
  constructor
  · intro p hp
    exact reconstructPolls_placeholders _ p hp
  · intro p hp hview
    refine reconstructPolls_empty_options p.id
      ((db.votes.filter (fun v => v.poll_id == p.id)).length) _ ?_ p hp rfl
    intro r hr hrpid
    have hrview := mem_pollsQueryRows db filters sort pagination r hr
    exact ⟨hview r hrview hrpid, pollResultsView_shape db p.id r hrview hrpid⟩

/-- C10 witness: on the concrete store, every poll listed without a creator
filter carries the placeholder values. -/
theorem getPolls_view_placeholders_witness :
    ((getPolls dbA none none none).polls.all (fun p =>
      p.created_by == "" && p.updated_at == "" &&
        !p.allow_multiple_votes && !p.is_anonymous)) = true := by
  have h := getPolls_view_placeholders_and_empty_options dbA none none none (by rfl)
  rw [List.all_eq_true]
  intro p hp
  obtain ⟨h1, h2, h3, h4⟩ := h.1 p hp
  simp [h1, h2, h3, h4]
